import Mathlib

/-!
Verification of the orchestration / memory / knowledge-graph core of the
`zhai_agent` conversational backend, as a shallow embedding in Lean 4.

Each Python function that the claims touch is translated into an executable
Lean definition:

* `zhai_agent/memory/shortmemory.py`  → namespace `ShortMem`
* `zhai_agent/memory/longmemory.py`   → namespace `LongMem`
* `zhai_agent/memory/memory_manager.py` → namespace `MemMgr`
* `zhai_agent/kg/kg_storage.py` and `kg_manager.py` → namespace `KG`
* `zhai_agent/workflow/workflow_manager.py` / `workflow_nodes.py` → namespace `Wf`

Python-specific behaviours (negative-index slicing, the `lst[-0:] == lst`
quirk, `re.match` accepting one trailing newline before `$`) are modelled
explicitly by the helpers in namespace `Py`.
-/

namespace Py

/-- Model of the Python slice `lst[:n]` for `n ≥ 0`. -/
def sliceTo (n : Nat) (l : List α) : List α := l.take n

/-- Model of the Python slice `lst[-n:]` for `n ≥ 0`.
Note the quirk: in Python `lst[-0:]` is `lst[0:]`, i.e. the whole list,
so `n = 0` keeps everything instead of keeping nothing. -/
def sliceLast (n : Nat) (l : List α) : List α :=
  if n = 0 then l else l.drop (l.length - n)

/-- The last `n` elements of a list (SQL `ORDER BY ... DESC LIMIT n` followed
by a reverse, and the intended meaning of "the most recent `n`"). -/
def takeLast (n : Nat) (l : List α) : List α := l.drop (l.length - n)


end Py

/-- A conversation turn as serialized by the memory layer
(`shortmemory.py` / `longmemory.py` both normalize messages to a dict with
`message_id`, `type`, `content`, `timestamp`, `additional_kwargs`, `name`,
`importance_score`).  `message_id` models the uuid string, `timestamp` the
isoformat string (both totally ordered); `importance_score` is a float in
the source, modelled as a rational. -/
structure Msg where
  message_id : Nat
  mtype : String
  content : String
  timestamp : Nat
  importance_score : ℚ
deriving DecidableEq, Repr

namespace ShortMem

/-- `ShortMemory` keyed state: `chat_memory:<user_id>` ↦ serialized list. -/
def Store := String → List Msg

def empty : Store := fun _ => []

/-- The field normalization both `store_memory` and `add_message` perform:
all incoming fields are kept, and the stored `importance_score` is the one
passed through `kwargs` (`0.0` when the caller does not pass one, which is
what `ShortTermMemoryBackend.add_memory` does). -/
def normalize (imp : ℚ) (m : Msg) : Msg := { m with importance_score := imp }

/-- `ShortMemory.get_memory(user_id)`: read and re-normalize the stored list. -/
def get_memory (st : Store) (u : String) : List Msg := st u

/-- `ShortMemory.add_message`: fetch the existing list, append the normalized
message, and truncate with `existing_messages[-max_memory_size:]` when the
length exceeds `max_memory_size`. -/
def add_message (maxSize : Nat) (st : Store) (u : String) (m : Msg) (imp : ℚ) :
    Store :=
  let existing := get_memory st u
  let appended := existing ++ [normalize imp m]
  let msgs := if maxSize < appended.length then Py.sliceLast maxSize appended
              else appended
  fun v => if v = u then msgs else st v

/-- The per-key effect of one `add_message` call, as a pure list operation. -/
def addToList (maxSize : Nat) (l : List Msg) (m : Msg) (imp : ℚ) : List Msg :=
  let appended := l ++ [normalize imp m]
  if maxSize < appended.length then Py.sliceLast maxSize appended else appended


/-- A sequence of `add_message` calls on one key, oldest first. -/
def addAll (maxSize : Nat) (l : List Msg) (writes : List Msg) : List Msg :=
  writes.foldl (fun acc m => addToList maxSize acc m 0) l

end ShortMem

namespace LongMem

/-- `long_term_memory` rows for one user, in insertion order (so ascending
`created_at`, the serial insert time). -/
def Store := String → List Msg

def empty : Store := fun _ => []

/-- `LongMemory.store_memory(user_id, messages)`: ensure the user row exists,
then run one `INSERT` per message.  The inserted `importance_score` is the
message's own `importance_score` field (present on every normalized message;
the `importance_score` argument is only a fallback for field-less dicts). -/
def store_memory (st : Store) (u : String) (msgs : List Msg) : Store :=
  fun v => if v = u then st u ++ msgs else st v

/-- `LongMemory.add_message`: `store_memory` of the singleton list. -/
def add_message (st : Store) (u : String) (m : Msg) : Store :=
  store_memory st u [m]

/-- `LongMemory.get_memory` with `order_by = created_at`:
`ORDER BY created_at DESC LIMIT limit`, then `memories.reverse()` back to
chronological order — i.e. the last `limit` inserted rows, in insertion
order. -/
def get_memory (st : Store) (u : String) (limit : Nat) : List Msg :=
  Py.takeLast limit (st u)

end LongMem

namespace MemMgr

/-- `MemoryManager` wired as in `MCPContextManager.__init__`: a `ShortMemory`
backend with capacity `shortMax`, a `LongMemory` backend, and the long-term
importance threshold. -/
structure State where
  shortMax : Nat
  short : ShortMem.Store
  long : LongMem.Store
  threshold : ℚ

/-- `MemoryManager.__init__` sets `long_memory_importance_threshold = 0.5`. -/
def defaultThreshold : ℚ := 1/2

/-- `MemoryManager.add_message`: always add to short-term (the short backend
forwards without the score, so the short tier stores `importance_score = 0`);
add to long-term iff `importance_score >= threshold`. -/
def add_message (st : State) (u : String) (m : Msg) (score : ℚ) : State :=
  let short := ShortMem.add_message st.shortMax st.short u m 0
  let long := if st.threshold ≤ score then LongMem.add_message st.long u m
              else st.long
  { st with short := short, long := long }

/-- Stable insertion (an element goes before the first strictly-later one),
used to model Python's stable `list.sort(key=timestamp)`. -/
def insertByTs (m : Msg) : List Msg → List Msg
  | [] => [m]
  | x :: xs => if x.timestamp < m.timestamp then x :: insertByTs m xs
               else m :: x :: xs

/-- Stable ascending sort by `timestamp` (the unique stable sort, hence equal
to Python's `list.sort`). -/
def sortByTs : List Msg → List Msg
  | [] => []
  | x :: xs => insertByTs x (sortByTs xs)

/-- The dedupe loop of `get_combined_memory`: append each long-term message
whose `message_id` is not already seen, extending the seen set as it goes. -/
def appendNew (ctx : List Msg) (seen : List Nat) : List Msg → List Msg
  | [] => ctx
  | m :: rest =>
    if seen.contains m.message_id then appendNew ctx seen rest
    else appendNew (ctx ++ [m]) (seen ++ [m.message_id]) rest

/-- `MemoryManager.get_combined_memory`:
short context via the backend (`get_memory(user)[:limit]`), optionally merge
the long tier (`get_memory(user, limit)`) deduplicating by `message_id`,
stable-sort ascending by timestamp, and return `context[-limit:]`. -/
def get_combined_memory (st : State) (u : String) (includeLong : Bool)
    (limit : Nat) : List Msg :=
  let context := Py.sliceTo limit (ShortMem.get_memory st.short u)
  let context :=
    if includeLong then
      let longs := LongMem.get_memory st.long u limit
      appendNew context (context.map (·.message_id)) longs
    else context
  Py.sliceLast limit (sortByTs context)

/-- The same read, returning the (unchanged) manager state alongside the
result: `get_combined_memory` performs no writes, which is what makes two
successive calls agree. -/
def get_combined_memory_run (st : State) (u : String) (includeLong : Bool)
    (limit : Nat) : List Msg × State :=
  (get_combined_memory st u includeLong limit, st)

/-- The spec's merge formula, written from its words (not from the code):
"build a set of short-term Turn ids; append long-term Turns whose id is not
in that set; stable-sort by timestamp ascending", truncated to the most
recent `limit` entries.  `S` and `L` are the full short-term and long-term
turn sets. -/
def specCombined (S L : List Msg) (limit : Nat) : List Msg :=
  Py.takeLast limit (sortByTs (appendNew S (S.map (·.message_id)) L))

end MemMgr

namespace KG

/-- Property values (`map<string,any>` values); an incoming value is
`Option Val`, with `none` standing for Python `None` / Cypher `null`. -/
abbrev Val := String

/-- Model of Python's `str.upper()` (ASCII case mapping, which is all the
label machinery relies on). -/
def asciiUpper (s : String) : String := String.mk (s.data.map Char.toUpper)

/-- The raw label pattern `^[a-zA-Z][a-zA-Z0-9_]*$` as a predicate on the
whole string. -/
def validLabelCore (s : String) : Bool :=
  match s.data with
  | [] => false
  | c :: cs => c.isAlpha && cs.all (fun d => d.isAlpha || d.isDigit || d == '_')

/-- Truthiness of `VALID_LABEL_PATTERN.match(label)` in Python: `$` also
matches just before a single trailing newline, so `"ABC\n"` passes. -/
def pyLabelMatch (s : String) : Bool :=
  validLabelCore s ||
    (match s.data.getLast? with
     | some c => c == '\n' && validLabelCore (String.mk s.data.dropLast)
     | none => false)

/-- `metadata = {k: v for k, v in metadata.items() if v is not None}` —
null-valued incoming properties are dropped. -/
def dropNones (md : List (String × Option Val)) : List (String × Val) :=
  md.filterMap (fun kv => kv.2.map (fun v => (kv.1, v)))

/-- Overwrite-or-insert one property (Cypher `SET x += map`, per key). -/
def setProp (props : List (String × Val)) (k : String) (v : Val) :
    List (String × Val) :=
  if props.any (fun kv => kv.1 == k) then
    props.map (fun kv => if kv.1 == k then (k, v) else kv)
  else props ++ [(k, v)]

/-- Cypher `SET x += $metadata`: merge the incoming map over the existing
properties, incoming values winning. -/
def mergeProps (props : List (String × Val)) (md : List (String × Val)) :
    List (String × Val) :=
  md.foldl (fun acc kv => setProp acc kv.1 kv.2) props

/-- Cypher `SET x += map` where the map may still contain nulls (the
knowledge-triple path does not filter them): a null value removes the key. -/
def mergePropsNullable (props : List (String × Val))
    (md : List (String × Option Val)) : List (String × Val) :=
  md.foldl
    (fun acc kv =>
      match kv.2 with
      | some v => setProp acc kv.1 v
      | none => acc.filter (fun p => ¬ p.1 == kv.1))
    props

/-- A stored node.  `etype` is the label exactly as it was interpolated into
the query.  `created_at`/`updated_at` are `none` when the node was created by
a bare `MERGE` that never `SET` them (the knowledge-triple path). -/
structure Entity where
  name : String
  etype : String
  props : List (String × Val)
  created_at : Option Nat
  updated_at : Option Nat
deriving DecidableEq, Repr

/-- A stored directed relationship; endpoints are identified by
`(label, name)` pairs, `rtype` is the relationship type as interpolated. -/
structure Rel where
  subj_name : String
  subj_type : String
  rtype : String
  obj_name : String
  obj_type : String
  props : List (String × Val)
  created_at : Option Nat
  updated_at : Option Nat
deriving DecidableEq, Repr

/-- The Neo4j database state.  `now` models `datetime()`: every operation
that stamps a time uses the current `now` and then advances the clock, so a
later call always stamps a strictly larger time. -/
structure Store where
  now : Nat
  entities : List Entity
  rels : List Rel
deriving DecidableEq, Repr

/-- The error taxonomy of the storage layer:
`validation` = `ValueError` for empty identities, `invalidLabel` =
`ValueError` from `_validate_label`, `notFound` = missing referenced
entity/relationship, `backend` = a Neo4j error wrapped into
`Exception("❌ ...")`. -/
inductive Err
  | validation | invalidLabel | notFound | backend
deriving DecidableEq, Repr

/-- `MERGE (e:T {name: $name})` match condition. -/
def entityKey (etype name : String) (e : Entity) : Bool :=
  e.etype == etype && e.name == name

def findEntity (st : Store) (etype name : String) : Option Entity :=
  st.entities.find? (entityKey etype name)

/-- `KGStorage.create_entity`: reject an empty name, uppercase and validate
the label, drop null-valued properties, then `MERGE` on `(label, name)` with
`SET e += metadata, e.updated_at = datetime(),
e.created_at = coalesce(e.created_at, datetime())`. -/
def create_entity (st : Store) (name etype : String)
    (md : List (String × Option Val)) : Except Err (Store × Entity) :=
  if name = "" then .error .validation
  else
    let T := asciiUpper etype
    if ¬ pyLabelMatch T then .error .invalidLabel
    else
      let props := dropNones md
      match findEntity st T name with
      | some e =>
        let upd : Entity → Entity := fun x =>
          { x with props := mergeProps x.props props,
                   updated_at := some st.now,
                   created_at := some (x.created_at.getD st.now) }
        .ok ({ st with now := st.now + 1,
                       entities := st.entities.map
                         (fun x => if entityKey T name x then upd x else x) },
             upd e)
      | none =>
        let e : Entity :=
          { name := name, etype := T, props := mergeProps [] props,
            created_at := some st.now, updated_at := some st.now }
        .ok ({ st with now := st.now + 1, entities := st.entities ++ [e] }, e)

/-- `MERGE (s)-[r:RT]->(o)` match condition, endpoints fixed. -/
def relKey (sT sn rT oT oname : String) (r : Rel) : Bool :=
  r.subj_type == sT && r.subj_name == sn && r.rtype == rT &&
  r.obj_type == oT && r.obj_name == oname

def findRel (st : Store) (sT sn rT oT oname : String) : Option Rel :=
  st.rels.find? (relKey sT sn rT oT oname)

/-- `KGStorage.create_relationship` (strict mode): reject empty parameters,
uppercase and validate the three labels (subject, object, relationship — in
that order), drop null properties, `MATCH` both endpoints (a missing one
makes the query return no row, surfacing as the "主体或客体不存在"
not-found failure), then `MERGE` the relationship with the same
stamp-and-coalesce property update as entities. -/
def create_relationship (st : Store) (sn sT0 rT0 oname oT0 : String)
    (md : List (String × Option Val)) : Except Err (Store × Rel) :=
  if sn = "" ∨ sT0 = "" ∨ rT0 = "" ∨ oname = "" ∨ oT0 = "" then .error .validation
  else
    let sT := asciiUpper sT0
    let oT := asciiUpper oT0
    let rT := asciiUpper rT0
    if ¬ pyLabelMatch sT then .error .invalidLabel
    else if ¬ pyLabelMatch oT then .error .invalidLabel
    else if ¬ pyLabelMatch rT then .error .invalidLabel
    else
      let props := dropNones md
      if (findEntity st sT sn).isSome ∧ (findEntity st oT oname).isSome then
        match findRel st sT sn rT oT oname with
        | some r =>
          let upd : Rel → Rel := fun x =>
            { x with props := mergeProps x.props props,
                     updated_at := some st.now,
                     created_at := some (x.created_at.getD st.now) }
          .ok ({ st with now := st.now + 1,
                         rels := st.rels.map
                           (fun x => if relKey sT sn rT oT oname x then upd x else x) },
               upd r)
        | none =>
          let r : Rel :=
            { subj_name := sn, subj_type := sT, rtype := rT,
              obj_name := oname, obj_type := oT, props := mergeProps [] props,
              created_at := some st.now, updated_at := some st.now }
          .ok ({ st with now := st.now + 1, rels := st.rels ++ [r] }, r)
      else .error .notFound

/-- `KGStorage.update_relationship`: rejects an empty metadata dict, drops
nulls, uppercases the three types and interpolates them into the query —
with NO `_validate_label` call anywhere.  A type that is not a valid Cypher
identifier therefore makes the query itself fail at the store, which the
method wraps into the generic "❌ 更新关系失败" exception (`Err.backend`),
not into the label-validation `ValueError`.  On a matched relationship it
merges the properties and refreshes only `updated_at`. -/
def update_relationship (st : Store) (sn sT0 rT0 oname oT0 : String)
    (md : List (String × Option Val)) : Except Err (Store × Rel) :=
  if md = [] then .error .validation
  else
    let props := dropNones md
    let sT := asciiUpper sT0
    let rT := asciiUpper rT0
    let oT := asciiUpper oT0
    if ¬ (validLabelCore sT && validLabelCore rT && validLabelCore oT) then
      .error .backend
    else
      match findRel st sT sn rT oT oname with
      | some r =>
        let upd : Rel → Rel := fun x =>
          { x with props := mergeProps x.props props, updated_at := some st.now }
        .ok ({ st with now := st.now + 1,
                       rels := st.rels.map
                         (fun x => if relKey sT sn rT oT oname x then upd x else x) },
             upd r)
      | none => .error .notFound

/-- Bare `MERGE (s:T {name: $n})` as used by the knowledge-triple path: if no
node with that label and name exists, create one carrying only the name —
no timestamps, no property stamping. -/
def mergeBareEntity (ents : List Entity) (etype name : String) : List Entity :=
  if ents.any (entityKey etype name) then ents
  else ents ++ [{ name := name, etype := etype, props := [],
                  created_at := none, updated_at := none }]

/-- `KGManager.create_knowledge_triple`: one raw Cypher statement that
`MERGE`s both endpoint nodes and the relationship.  The three labels are
interpolated EXACTLY as given — no `_validate_label` call and no
`.upper()` — so a label failing the identifier syntax makes the query fail;
the surrounding `try/except` swallows that and returns `False` with the
store untouched.  The property map is not null-filtered here (`+=` with a
Cypher null removes the key). -/
def create_knowledge_triple (st : Store) (subject predicate obj : String)
    (subj_type obj_type : String) (props : List (String × Option Val)) :
    Store × Bool :=
  if ¬ (validLabelCore subj_type && validLabelCore obj_type &&
        validLabelCore predicate) then
    (st, false)
  else
    let ents := mergeBareEntity (mergeBareEntity st.entities subj_type subject)
                  obj_type obj
    let rels :=
      match (st.rels.find? (relKey subj_type subject predicate obj_type obj)) with
      | some _ =>
        st.rels.map (fun x =>
          if relKey subj_type subject predicate obj_type obj x then
            { x with props := mergePropsNullable x.props props,
                     updated_at := some st.now,
                     created_at := some (x.created_at.getD st.now) }
          else x)
      | none =>
        st.rels ++ [{ subj_name := subject, subj_type := subj_type,
                      rtype := predicate, obj_name := obj, obj_type := obj_type,
                      props := mergePropsNullable [] props,
                      created_at := some st.now, updated_at := some st.now }]
    ({ st with now := st.now + 1, entities := ents, rels := rels }, true)

/-- One record of `batch_create_entities`' input. -/
structure EntitySpec where
  name : String
  etype : String
  md : List (String × Option Val)

/-- `KGStorage.batch_create_entities`: per record, skip it when the name or
type is empty, uppercase the type, call `create_entity` (which uppercases
again), and on any failure log and continue with the previous store. -/
def batch_create_entities : Store → List EntitySpec → Store
  | st, [] => st
  | st, spec :: rest =>
    if spec.name = "" ∨ spec.etype = "" then batch_create_entities st rest
    else
      match create_entity st spec.name (asciiUpper spec.etype) spec.md with
      | .ok p => batch_create_entities p.1 rest
      | .error _ => batch_create_entities st rest

/-- One record of `batch_create_relationships`' input. -/
structure RelSpec where
  subj_name : String
  subj_type : String
  rel_type : String
  obj_name : String
  obj_type : String
  md : List (String × Option Val)

/-- `KGStorage.batch_create_relationships`: per record, uppercase the three
types, call `create_relationship` (which uppercases again), log-and-continue
on failure.  The per-record outcomes are kept for analysis. -/
def batch_create_relationships : Store → List RelSpec → Store × List (Except Err Rel)
  | st, [] => (st, [])
  | st, spec :: rest =>
    match create_relationship st spec.subj_name (asciiUpper spec.subj_type)
            (asciiUpper spec.rel_type) spec.obj_name (asciiUpper spec.obj_type)
            spec.md with
    | .ok p =>
      let tail := batch_create_relationships p.1 rest
      (tail.1, .ok p.2 :: tail.2)
    | .error e =>
      let tail := batch_create_relationships st rest
      (tail.1, .error e :: tail.2)

/-- The distinct subject/object names of a triple list (the Python code uses
a `set`; first-occurrence order is a deterministic refinement of it, and no
property below depends on the order). -/
def addIfAbsent (acc : List String) (x : String) : List String :=
  if acc.contains x then acc else acc ++ [x]

def collectAux : List String → List (String × String × String) → List String
  | acc, [] => acc
  | acc, t :: rest => collectAux (addIfAbsent (addIfAbsent acc t.1) t.2.2) rest

def collectEntities (triples : List (String × String × String)) : List String :=
  collectAux [] triples

/-- `entity_type_map.get(name, "Entity")`. -/
def lookupType (tmap : List (String × String)) (name : String) : String :=
  match tmap.find? (fun kv => kv.1 == name) with
  | some kv => kv.2
  | none => "Entity"

/-- `KGManager.import_from_triples`: collect the distinct entity names,
batch-upsert them all (type from the map, defaulting to `"Entity"`), then
batch-create every relationship.  Returns the final store and the
per-relationship outcomes. -/
def import_from_triples (st : Store) (triples : List (String × String × String))
    (tmap : List (String × String)) : Store × List (Except Err Rel) :=
  let especs := (collectEntities triples).map
    (fun n => EntitySpec.mk n (lookupType tmap n) [])
  let st1 := batch_create_entities st especs
  let rspecs := triples.map
    (fun t => RelSpec.mk t.1 (lookupType tmap t.1) t.2.1 t.2.2
      (lookupType tmap t.2.2) [])
  batch_create_relationships st1 rspecs

/-- Number of stored entities matching one `(label, name)` identity. -/
def countEntity (st : Store) (etype name : String) : Nat :=
  (st.entities.filter (entityKey etype name)).length

/-- Property lookup in a stored property map. -/
def lookupProp (props : List (String × Val)) (k : String) : Option Val :=
  (props.find? (fun kv => kv.1 == k)).map (·.2)

/-- The empty Neo4j database at clock 0. -/
def emptyStore : Store := { now := 0, entities := [], rels := [] }

end KG

namespace Wf

/-- A retrieved document (`Document{content, metadata}`). -/
structure Doc where
  content : String
  metadata : List (String × String)
deriving DecidableEq, Repr

/-- A LangChain message in `ChatState.messages`: `role` is the message type
(`"human"` for `HumanMessage`, `"ai"` for `AIMessage`). -/
structure ChatMsg where
  role : String
  content : String
deriving DecidableEq, Repr

/-- `models/chat_state.py` `ChatState`, with its defaults. -/
structure ChatState where
  messages : List ChatMsg
  retrieved_documents : List Doc
  query : Option String
  round : Nat
  user_id : String
  session_id : String
  user_name : String
  short_memory_context : String
  memory_context : String
  rag_context : String
  kg_context : String
deriving DecidableEq, Repr

/-- The state `WorkflowManager.process_user_request` builds: one user turn,
every other field at its `ChatState` default. -/
def initialState (user_message user_name session_id : String) : ChatState :=
  { messages := [⟨"human", user_message⟩], retrieved_documents := [],
    query := none, round := 0, user_id := "0", session_id := session_id,
    user_name := user_name, short_memory_context := "", memory_context := "",
    rag_context := "", kg_context := "" }

/-- The external collaborators one workflow run interacts with, as data:
the mirix memory prompt, the fallible document-retrieval call, the reranker,
the reply text the `llm_kg_node` LLM round ends with (its own
exception-recovery apology included — the node appends a turn either way),
the fallible KG-search tool round (producing the `kg_context` string), and
the reply text of the `chat` node (again, normal or fallback). -/
structure Env where
  mirixContext : String
  ragDocs : Except String (List Doc)
  rerank : List Doc → List Doc
  llmKgReply : String
  kgSearch : Except String String
  chatReply : String

/-- The `rag_context` formatting loop: `f"参考资料{i}：{content}\n"` joined. -/
def formatDocs (docs : List Doc) : String :=
  String.join ((docs.enum).map
    (fun p => "参考资料" ++ toString (p.1 + 1) ++ "：" ++ p.2.content ++ "\n"))

/-- `WorkflowNodes.mirix_memory_node`: writes `memory_context` from the
memory agent; touches nothing else. -/
def mirix_memory_node (env : Env) (s : ChatState) : ChatState :=
  { s with memory_context := env.mirixContext }

/-- The `AttributeError` raised by `state.messages[-1].get('content', '')`:
`ChatState.messages` goes through the `add_messages` reducer, which only
ever produces LangChain message objects, and those have no `.get` method. -/
def attrErrorGet : String :=
  "AttributeError: message object has no attribute get"

/-- The `AttributeError` raised inside `kg_search_node`'s except branch:
the `PromptBuilder` class defines no `build_kg_prompt` method. -/
def attrErrorBuildKg : String :=
  "AttributeError: PromptBuilder object has no attribute build_kg_prompt"

/-- `WorkflowNodes.rag_node`: the node has no try/except.  Its first line,
`state.messages[-1].get('content', '') if state.messages else ""`, calls
`.get` on a LangChain message object whenever the list is nonempty, which
raises `AttributeError` before retrieval is ever reached.  Only with an
empty message list does the node proceed: the query becomes `""`, the
(fallible, uncaught) retrieval runs, the retrieved documents are recorded,
and the reranked documents are formatted into `rag_context`. -/
def rag_node (env : Env) (s : ChatState) : Except String ChatState :=
  if s.messages = [] then
    match env.ragDocs with
    | .error e => .error e
    | .ok docs =>
      .ok { s with query := some "",
                   retrieved_documents := docs,
                   rag_context := formatDocs (env.rerank docs) }
  else .error attrErrorGet

/-- `WorkflowNodes.llm_kg_node`: the tool-calling LLM round; whatever
happens (success, or the `except` branch's apology), exactly one
`AIMessage` is appended to the state. -/
def llm_kg_node (env : Env) (s : ChatState) : ChatState :=
  { s with messages := s.messages ++ [⟨"ai", env.llmKgReply⟩] }

/-- `WorkflowNodes.kg_search_node`: on success writes the assembled context
into `kg_context`.  On any failure the catch-all `except` branch calls
`self.prompt_builder.build_kg_prompt(error_context)` — a method the
`PromptBuilder` class does not define — so the handler itself raises
`AttributeError`: the node aborts the graph instead of degrading, and
`kg_context` is never written. -/
def kg_search_node (env : Env) (s : ChatState) : Except String ChatState :=
  match env.kgSearch with
  | .ok ctx => .ok { s with kg_context := ctx }
  | .error _ => .error attrErrorBuildKg

/-- `WorkflowNodes.chat_node`: returns unchanged on an empty message list,
otherwise appends exactly one `AIMessage` (the generated reply, or the
`except` branch's apology). -/
def chat_node (env : Env) (s : ChatState) : ChatState :=
  if s.messages = [] then s
  else { s with messages := s.messages ++ [⟨"ai", env.chatReply⟩] }

/-- `WorkflowNodes.store_mirix_memory_node`: persists the conversation into
the external memory agent; the `ChatState` itself is returned unchanged. -/
def store_mirix_memory_node (_env : Env) (s : ChatState) : ChatState := s

/-- The edges registered by `WorkflowManager.create_workflow`, verbatim. -/
def workflowEdges : List (String × String) :=
  [("get_mirix_memory", "rag_node"),
   ("rag_node", "llm_kg_node"),
   ("llm_kg_node", "kg_search_node"),
   ("kg_search_node", "chat"),
   ("chat", "store_mirix_memory")]

/-- `workflow.set_entry_point("get_mirix_memory")`. -/
def entryPoint : String := "get_mirix_memory"

/-- `workflow.set_finish_point("store_mirix_memory")`. -/
def finishPoint : String := "store_mirix_memory"

/-- The execution order of the compiled graph.  The edge set above is a
single chain from the entry point to the finish point, so the compiled
LangGraph app runs the nodes strictly in this sequence (see
`nodeSequence_matches_edges` below). -/
def nodeSequence : List String :=
  ["get_mirix_memory", "rag_node", "llm_kg_node", "kg_search_node",
   "chat", "store_mirix_memory"]

/-- Dispatch one named node (`workflow.add_node` registrations). -/
def applyNode (env : Env) (s : ChatState) (name : String) :
    Except String ChatState :=
  if name = "get_mirix_memory" then .ok (mirix_memory_node env s)
  else if name = "rag_node" then rag_node env s
  else if name = "llm_kg_node" then .ok (llm_kg_node env s)
  else if name = "kg_search_node" then kg_search_node env s
  else if name = "chat" then .ok (chat_node env s)
  else if name = "store_mirix_memory" then .ok (store_mirix_memory_node env s)
  else .ok s

/-- One full `app.invoke(state)`: run the chain in order; an uncaught node
exception aborts the run and surfaces to the caller. -/
def runWorkflow (env : Env) (s : ChatState) : Except String ChatState :=
  nodeSequence.foldlM (applyNode env) s

/-- Direct successors of a node in the task graph. -/
def edgeSuccs (n : String) : List String :=
  ((workflowEdges.filter (fun e => e.1 == n)).map (fun e => e.2))

/-- Bounded reachability closure over the edge list. -/
def reachAux : Nat → List String → List String
  | 0, seen => seen
  | fuel + 1, seen =>
    let next := ((seen.map edgeSuccs).flatten).filter (fun x => ¬ seen.contains x)
    if next.isEmpty then seen else reachAux fuel (seen ++ next)

/-- `precedes a b`: a nonempty chain of graph edges leads from `a` to `b`,
i.e. in the compiled graph `b` can only start after `a` has completed. -/
def precedes (a b : String) : Bool :=
  (reachAux workflowEdges.length (edgeSuccs a)).contains b

/-- Number of assistant (`AIMessage`) turns in a message list. -/
def countAssistant (msgs : List ChatMsg) : Nat :=
  msgs.countP (fun m => m.role == "ai")

end Wf

section ExampleInputs

/-- A benign environment: retrieval succeeds, both LLM rounds answer. -/
def exEnv : Wf.Env :=
  { mirixContext := "user likes cats",
    ragDocs := .ok [⟨"cats are small felines", []⟩],
    rerank := id,
    llmKgReply := "recorded your preference",
    kgSearch := .ok "alice -likes-> cats",
    chatReply := "Nice, cats are great!" }

/-- The same environment with a failing document retrieval. -/
def exEnvRagFail : Wf.Env := { exEnv with ragDocs := .error "retrieval backend down" }

/-- The same environment with a failing KG-search round. -/
def exEnvKgFail : Wf.Env := { exEnv with kgSearch := .error "neo4j unavailable" }

/-- `process_user_request("I like cats", "alice", "s1")`'s initial state. -/
def exState : Wf.ChatState := Wf.initialState "I like cats" "alice" "s1"

/-- A state whose message list is empty — the only kind of state on which
`rag_node` does not raise at its message read. -/
def exEmptyState : Wf.ChatState :=
  { Wf.initialState "" "alice" "s1" with messages := [] }

/-- Concrete turns for the memory claims. -/
def mA : Msg := ⟨1, "human", "hi", 1, 0⟩

def mB : Msg := ⟨2, "ai", "hello", 2, 0⟩

def mC : Msg := ⟨3, "human", "how are you", 3, 0⟩

/-- A memory manager whose short tier holds two turns for user `"u"`. -/
def exMemState : MemMgr.State :=
  { shortMax := 10,
    short := fun u => if u = "u" then [mA, mB] else [],
    long := LongMem.empty,
    threshold := 1/2 }

/-- Incoming properties with one null value, for the upsert claims. -/
def exMd : List (String × Option KG.Val) := [("pet", some "cat"), ("age", none)]

/-- The entity produced by the first example upsert. -/
def exE1 : KG.Entity := ⟨"Alice", "PERSON", [("pet", "cat")], some 0, some 0⟩

/-- The entity after the second, identical upsert. -/
def exE2 : KG.Entity := ⟨"Alice", "PERSON", [("pet", "cat")], some 0, some 1⟩

/-- The store after the first example upsert. -/
def exSt1 : KG.Store := ⟨1, [exE1], []⟩

/-- The store after the second example upsert. -/
def exSt2 : KG.Store := ⟨2, [exE2], []⟩

/-- A store holding two entities and one relationship whose type is not a
valid label (such a state is reachable through the unvalidated paths). -/
def exRelStore : KG.Store :=
  ⟨5, [⟨"a", "T", [], some 0, some 0⟩, ⟨"b", "T", [], some 1, some 1⟩],
      [⟨"a", "T", "HAS-PART", "b", "T", [], some 2, some 2⟩]⟩

/-- The store produced by one knowledge-triple call with type `"Person"`. -/
def exTripleStore : KG.Store :=
  (KG.create_knowledge_triple KG.emptyStore "alice" "likes" "bob"
    "Person" "Person" []).1

/-- The relationship created by the example `import_from_triples` run. -/
def exRelW : KG.Rel :=
  ⟨"Alice", "ENTITY", "WORKS_AT", "Acme", "ENTITY", [], some 2, some 2⟩

/-- The entity created by upserting `("alice", "Person")` in an empty store. -/
def exP1 : KG.Entity := ⟨"alice", "PERSON", [], some 0, some 0⟩

/-- The same entity after a second upsert with type `"PERSON"`. -/
def exP2 : KG.Entity := ⟨"alice", "PERSON", [], some 0, some 1⟩

/-- The store after the first `("alice", "Person")` upsert. -/
def exPSt1 : KG.Store := ⟨1, [exP1], []⟩

/-- The store after the second `("alice", "PERSON")` upsert. -/
def exPSt2 : KG.Store := ⟨2, [exP2], []⟩

end ExampleInputs

/-! ## Helper lemmas -/

theorem Py.takeLast_of_length_le (n : Nat) (l : List α) (h : l.length ≤ n) :
    Py.takeLast n l = l := by
  simp [Py.takeLast, Nat.sub_eq_zero_of_le h]

theorem Py.sliceLast_eq_takeLast_of_pos (n : Nat) (l : List α) (h : 0 < n) :
    Py.sliceLast n l = Py.takeLast n l := by
  simp [Py.sliceLast, Py.takeLast, Nat.pos_iff_ne_zero.mp h]

theorem Py.takeLast_append_takeLast (n : Nat) (a b : List α) :
    Py.takeLast n (Py.takeLast n a ++ b) = Py.takeLast n (a ++ b) := by
  rcases le_or_lt a.length n with h | h
  · rw [Py.takeLast_of_length_le n a h]
  · have hn : n ≤ a.length := Nat.le_of_lt h
    show ((a.drop (a.length - n)) ++ b).drop
          (((a.drop (a.length - n)) ++ b).length - n)
        = (a ++ b).drop ((a ++ b).length - n)
    have h1 : (a.drop (a.length - n)).length = n := by
      simp only [List.length_drop]; omega
    have h2 : ((a.drop (a.length - n)) ++ b).length - n = b.length := by
      simp only [List.length_append, h1]; omega
    have h3 : (a ++ b).length - n = (a.length - n) + b.length := by
      simp only [List.length_append]; omega
    rw [h2, h3, ← List.drop_drop]
    congr 1
    rw [List.drop_append_eq_append_drop,
        Nat.sub_eq_zero_of_le (Nat.sub_le a.length n), List.drop_zero]

theorem ShortMem.add_message_apply (maxSize : Nat) (st : ShortMem.Store)
    (u : String) (m : Msg) (imp : ℚ) :
    ShortMem.add_message maxSize st u m imp u
      = ShortMem.addToList maxSize (st u) m imp := by
  simp [ShortMem.add_message, ShortMem.addToList, ShortMem.get_memory]

theorem ShortMem.addToList_eq_takeLast (N : Nat) (hN : 1 ≤ N) (l : List Msg)
    (hl : l.length ≤ N) (m : Msg) (imp : ℚ) :
    ShortMem.addToList N l m imp
      = Py.takeLast N (l ++ [ShortMem.normalize imp m]) := by
  unfold ShortMem.addToList
  rcases Nat.lt_or_ge l.length N with h | h
  · have hc : ¬ N < (l ++ [ShortMem.normalize imp m]).length := by
      simp only [List.length_append, List.length_cons, List.length_nil]; omega
    rw [if_neg hc, Py.takeLast_of_length_le]
    simp only [List.length_append, List.length_cons, List.length_nil]; omega
  · have hEq : l.length = N := Nat.le_antisymm hl h
    have hc : N < (l ++ [ShortMem.normalize imp m]).length := by
      simp only [List.length_append, List.length_cons, List.length_nil]; omega
    rw [if_pos hc, Py.sliceLast_eq_takeLast_of_pos _ _ hN]

theorem ShortMem.addToList_length_le (N : Nat) (hN : 1 ≤ N) (l : List Msg)
    (hl : l.length ≤ N) (m : Msg) (imp : ℚ) :
    (ShortMem.addToList N l m imp).length ≤ N := by
  rw [ShortMem.addToList_eq_takeLast N hN l hl m imp]
  simp only [Py.takeLast, List.length_drop]; omega

theorem ShortMem.addAll_eq (N : Nat) (hN : 1 ≤ N) (writes : List Msg)
    (l : List Msg) (hl : l.length ≤ N) :
    ShortMem.addAll N l writes
      = Py.takeLast N (l ++ writes.map (ShortMem.normalize 0)) := by
  induction writes generalizing l with
  | nil => simpa [ShortMem.addAll] using (Py.takeLast_of_length_le N l hl).symm
  | cons w ws ih =>
    have hstep := ShortMem.addToList_eq_takeLast N hN l hl w 0
    have hlen := ShortMem.addToList_length_le N hN l hl w 0
    calc ShortMem.addAll N l (w :: ws)
        = ShortMem.addAll N (ShortMem.addToList N l w 0) ws := by
          simp [ShortMem.addAll]
      _ = Py.takeLast N (ShortMem.addToList N l w 0
            ++ ws.map (ShortMem.normalize 0)) := ih _ hlen
      _ = Py.takeLast N (Py.takeLast N (l ++ [ShortMem.normalize 0 w])
            ++ ws.map (ShortMem.normalize 0)) := by rw [hstep]
      _ = Py.takeLast N ((l ++ [ShortMem.normalize 0 w])
            ++ ws.map (ShortMem.normalize 0)) := Py.takeLast_append_takeLast ..
      _ = Py.takeLast N (l ++ (w :: ws).map (ShortMem.normalize 0)) := by simp

theorem Wf.runWorkflow_eq (env : Wf.Env) (s : Wf.ChatState) :
    Wf.runWorkflow env s =
      (Wf.rag_node env (Wf.mirix_memory_node env s)).bind (fun s2 =>
        (Wf.kg_search_node env (Wf.llm_kg_node env s2)).bind (fun s4 =>
          .ok (Wf.store_mirix_memory_node env (Wf.chat_node env s4)))) := by
  obtain ⟨mc, rd, rr, lk, ks, cr⟩ := env
  rfl

/-- The registered edge list is one chain whose first node is the entry
point and whose last node is the finish point, so the compiled graph runs
the nodes exactly in `nodeSequence` order. -/
theorem Wf.nodeSequence_matches_edges :
    Wf.nodeSequence.zip Wf.nodeSequence.tail = Wf.workflowEdges ∧
    Wf.nodeSequence.head? = some Wf.entryPoint ∧
    Wf.nodeSequence.getLast? = some Wf.finishPoint := by decide

/-! ## Claim C1 -/

/-- Claim C1 is defeated by a code bug: every graph run whose state carries
at least one message — in particular every run `process_user_request`
builds, which seeds exactly one user Turn — aborts inside `rag_node`.  Its
first line calls `.get` on a LangChain message object, raising
`AttributeError` before retrieval, so the invocation errors out and ZERO
assistant Turns are appended where the claim requires exactly one. -/
theorem C1_run_aborts (env : Wf.Env) (s : Wf.ChatState)
    (h : s.messages ≠ []) :
    Wf.runWorkflow env s = .error Wf.attrErrorGet := by
  rw [Wf.runWorkflow_eq]
  unfold Wf.rag_node
  rw [if_neg (by simpa [Wf.mirix_memory_node] using h)]
  rfl

/-- Witness for C1: the run on the one-user-turn initial state aborts with
the AttributeError from the message read. -/
theorem C1_witness :
    Wf.runWorkflow exEnv exState = .error Wf.attrErrorGet :=
  C1_run_aborts exEnv exState (by decide)

/-! ## Claim C2 -/

/-- Claim C2, as stated, is FALSE on the code: knowledge extraction
(`llm_kg_node`) does not start after Generate (`chat`) — it strictly
precedes it in the compiled chain, while `chat` never precedes it. -/
theorem C2_counterexample :
    Wf.precedes "llm_kg_node" "chat" = true ∧
    Wf.precedes "chat" "llm_kg_node" = false := by decide

/-- Claim C2 (amended): the graph is one sequential chain
load-memory → rag → extract-knowledge → kg-search → generate →
persist-memory.  So: load-memory precedes both read tasks, both read tasks
precede Generate, and Persist-Memory starts after Generate — but
Extract-Knowledge runs BEFORE kg-search and BEFORE Generate, and nothing
runs concurrently. -/
theorem C2_execution_order :
    Wf.precedes "get_mirix_memory" "rag_node" = true ∧
    Wf.precedes "get_mirix_memory" "kg_search_node" = true ∧
    Wf.precedes "rag_node" "chat" = true ∧
    Wf.precedes "kg_search_node" "chat" = true ∧
    Wf.precedes "chat" "store_mirix_memory" = true ∧
    Wf.precedes "rag_node" "llm_kg_node" = true ∧
    Wf.precedes "llm_kg_node" "kg_search_node" = true ∧
    Wf.precedes "llm_kg_node" "chat" = true ∧
    Wf.precedes "store_mirix_memory" "llm_kg_node" = false := by decide

/-! ## Claim C3 -/

/-- Claim C3 is defeated by code bugs: NO failing read task is caught and
degraded.  `kg_search_node`'s except branch calls the nonexistent
`PromptBuilder.build_kg_prompt`, so on any KG-search failure the handler
itself raises `AttributeError` and the node aborts (first conjunct);
`rag_node` has no try/except at all, and with a nonempty message list it
raises at the message read before retrieval (second conjunct); and a full
run that does reach the KG-search node (empty messages, successful
retrieval) aborts the whole graph on a KG-search failure, propagating it to
the caller with `kg_context` never written (third conjunct). -/
theorem C3_read_failures_propagate :
    (∀ (env : Wf.Env) (s : Wf.ChatState) (e : String),
       env.kgSearch = .error e →
       Wf.kg_search_node env s = .error Wf.attrErrorBuildKg) ∧
    (∀ (env : Wf.Env) (s : Wf.ChatState),
       s.messages ≠ [] → Wf.rag_node env s = .error Wf.attrErrorGet) ∧
    (∀ (env : Wf.Env) (s : Wf.ChatState) (e : String) (docs : List Wf.Doc),
       s.messages = [] → env.ragDocs = .ok docs → env.kgSearch = .error e →
       Wf.runWorkflow env s = .error Wf.attrErrorBuildKg) := by
  refine ⟨?_, ?_, ?_⟩
  · intro env s e h
    unfold Wf.kg_search_node
    rw [h]
  · intro env s h
    unfold Wf.rag_node
    rw [if_neg h]
  · intro env s e docs hm hr hk
    rw [Wf.runWorkflow_eq]
    unfold Wf.rag_node
    rw [if_pos (by simpa [Wf.mirix_memory_node] using hm), hr]
    unfold Wf.kg_search_node
    rw [hk]
    rfl

/-- Witness for C3: a failing KG search aborts the node with the handler
AttributeError; the nonempty-messages run aborts in `rag_node`; and the one
run shape that reaches KG search errors out to the caller. -/
theorem C3_witness :
    Wf.kg_search_node exEnvKgFail exState = .error Wf.attrErrorBuildKg ∧
    Wf.rag_node exEnvRagFail exState = .error Wf.attrErrorGet ∧
    Wf.runWorkflow exEnvKgFail exEmptyState = .error Wf.attrErrorBuildKg :=
  ⟨C3_read_failures_propagate.1 exEnvKgFail exState "neo4j unavailable" rfl,
   C3_read_failures_propagate.2.1 exEnvRagFail exState (by decide),
   C3_read_failures_propagate.2.2 exEnvKgFail exEmptyState "neo4j unavailable"
     [⟨"cats are small felines", []⟩] rfl rfl rfl⟩

/-! ## Claim C4 -/

/-- Claim C4 (confirmed): `MemoryManager.add_message` always performs the
short-term write (the FIFO append-and-truncate on the user's key, with the
backend dropping the score), and appends exactly one long-term record iff
`importance_score >= threshold`; the constructor default threshold is 0.5. -/
theorem C4_importance_gate (st : MemMgr.State) (u : String) (m : Msg)
    (score : ℚ) :
    (MemMgr.add_message st u m score).short u
        = ShortMem.addToList st.shortMax (st.short u) m 0 ∧
    (MemMgr.add_message st u m score).long u
        = st.long u ++ (if st.threshold ≤ score then [m] else []) ∧
    MemMgr.defaultThreshold = 1/2 := by
  refine ⟨?_, ?_, rfl⟩
  · simpa [MemMgr.add_message] using
      ShortMem.add_message_apply st.shortMax st.short u m 0
  · by_cases h : st.threshold ≤ score
    · simp [MemMgr.add_message, h, LongMem.add_message, LongMem.store_memory]
    · simp [MemMgr.add_message, h]

/-! ## Claim C5 -/

/-- Claim C5, as stated, is FALSE on the code: with `limit = 1` and a
short-term set of two turns, `get_combined_memory` truncates the short tier
to its FIRST `limit` entries BEFORE merging and sorting, returning the
oldest turn, while the spec formula returns the most recent one. -/
theorem C5_counterexample :
    MemMgr.get_combined_memory exMemState "u" true 1 = [mA] ∧
    MemMgr.specCombined [mA, mB] [] 1 = [mB] ∧
    mA ≠ mB := by decide

/-- Claim C5 (amended): whenever each tier holds at most `limit` entries
(so the per-tier pre-truncations `short[:limit]` and the long tier's
`LIMIT limit` keep everything), `get_combined_memory` with
`include_long_term = true` equals the spec formula
`sort_by_timestamp(dedupe_by_id(S ∪ L))` truncated to the most recent
`limit`; and the read performs no write, so calling twice with no
intervening writes yields identical output. -/
theorem C5_merge_within_limits (st : MemMgr.State) (u : String) (limit : Nat)
    (hS : (st.short u).length ≤ limit) (hL : (st.long u).length ≤ limit) :
    MemMgr.get_combined_memory st u true limit
      = MemMgr.specCombined (st.short u) (st.long u) limit ∧
    (MemMgr.get_combined_memory_run st u true limit).2 = st ∧
    (MemMgr.get_combined_memory_run
        (MemMgr.get_combined_memory_run st u true limit).2 u true limit).1
      = (MemMgr.get_combined_memory_run st u true limit).1 := by
  refine ⟨?_, rfl, rfl⟩
  unfold MemMgr.get_combined_memory MemMgr.specCombined
  simp only [ShortMem.get_memory, LongMem.get_memory, if_true]
  rw [show Py.sliceTo limit (st.short u) = st.short u from
        List.take_of_length_le hS,
      Py.takeLast_of_length_le limit (st.long u) hL]
  rcases Nat.eq_zero_or_pos limit with h0 | hpos
  · subst h0
    have hS0 : st.short u = [] := List.eq_nil_of_length_eq_zero
      (Nat.le_zero.mp hS)
    have hL0 : st.long u = [] := List.eq_nil_of_length_eq_zero
      (Nat.le_zero.mp hL)
    rw [hS0, hL0]
    rfl
  · rw [Py.sliceLast_eq_takeLast_of_pos _ _ hpos]

/-- Witness for C5: the amended theorem at the example manager, whose tiers
are within the limit. -/
theorem C5_witness :
    MemMgr.get_combined_memory exMemState "u" true 10
      = MemMgr.specCombined (exMemState.short "u") (exMemState.long "u") 10 :=
  (C5_merge_within_limits exMemState "u" 10 (by decide) (by decide)).1

/-! ## Claim C6 -/

/-- Claim C6, as stated, is FALSE for capacity `N = 0`: the truncation is
`existing_messages[-max_memory_size:]`, and in Python `lst[-0:]` is the
whole list, so with capacity 0 nothing is ever evicted — after one write
one entry remains, where the claim demands zero. -/
theorem C6_counterexample :
    (ShortMem.addAll 0 [] [mA]).length = 1 := by decide

/-- Claim C6 (amended): for every capacity `N ≥ 1`, after any sequence of
writes to an initially empty short-term key exactly the `N` most recently
written entries remain (strict FIFO eviction); in particular after at least
`N` writes exactly `N` entries remain. -/
theorem C6_fifo_capacity (N : Nat) (writes : List Msg) (hN : 1 ≤ N) :
    ShortMem.addAll N [] writes
      = Py.takeLast N (writes.map (ShortMem.normalize 0)) ∧
    (N ≤ writes.length → (ShortMem.addAll N [] writes).length = N) := by
  have h := ShortMem.addAll_eq N hN writes [] (by simp)
  constructor
  · simpa using h
  · intro hlen
    rw [h]
    simp only [List.nil_append, Py.takeLast, List.length_drop,
      List.length_map]
    omega

/-- Witness for C6: capacity 2, three writes, two entries remain. -/
theorem C6_witness : (ShortMem.addAll 2 [] [mA, mB, mC]).length = 2 :=
  (C6_fifo_capacity 2 [mA, mB, mC] (by decide)).2 (by decide)

/-! ## Knowledge-graph lemmas -/

theorem KG.asciiUpper_eq_empty_iff (s : String) :
    KG.asciiUpper s = "" ↔ s = "" := by
  cases s with
  | mk d =>
    cases d with
    | nil => constructor <;> intro _ <;> rfl
    | cons c cs =>
      constructor <;> intro h
      · exact absurd (congrArg String.data h) (by simp [KG.asciiUpper])
      · exact absurd (congrArg String.data h) (by simp)

theorem KG.find?_append_of_none {α : Type} {p : α → Bool} {l₁ l₂ : List α}
    (h : l₁.find? p = none) : (l₁ ++ l₂).find? p = l₂.find? p := by
  rw [List.find?_append, h, Option.none_or]

theorem KG.find?_map_overwrite (props : List (String × KG.Val))
    (k' : String) (v : KG.Val) (k : String) (h : (k' == k) = false) :
    (props.map (fun kv => if kv.1 == k' then (k', v) else kv)).find?
        (fun kv => kv.1 == k)
      = props.find? (fun kv => kv.1 == k) := by
  induction props with
  | nil => rfl
  | cons kv rest ih =>
    simp only [List.map_cons]
    by_cases hkv : (kv.1 == k') = true
    · have hk2 : (kv.1 == k) = false := by
        cases h2 : (kv.1 == k) with
        | false => rfl
        | true =>
          exfalso
          have e1 := eq_of_beq hkv
          have e2 := eq_of_beq h2
          rw [← e1, e2] at h
          simp at h
      have hhead : (if (kv.1 == k') = true then (k', v) else kv) = (k', v) :=
        if_pos hkv
      rw [hhead, List.find?_cons, List.find?_cons]
      dsimp only
      rw [h, hk2]
      exact ih
    · have hhead : (if (kv.1 == k') = true then (k', v) else kv) = kv :=
        if_neg hkv
      cases h2 : (kv.1 == k) with
      | false =>
        rw [hhead, List.find?_cons, List.find?_cons, h2]
        exact ih
      | true =>
        rw [hhead, List.find?_cons, List.find?_cons, h2]

theorem KG.lookupProp_setProp_ne (props : List (String × KG.Val))
    (k' : String) (v : KG.Val) (k : String) (h : (k' == k) = false) :
    KG.lookupProp (KG.setProp props k' v) k = KG.lookupProp props k := by
  unfold KG.setProp
  split
  · unfold KG.lookupProp
    rw [KG.find?_map_overwrite props k' v k h]
  · unfold KG.lookupProp
    rw [List.find?_append]
    have hnone : List.find? (fun kv : String × KG.Val => kv.1 == k) [(k', v)]
        = none := by
      rw [List.find?_cons]
      dsimp only
      rw [h]
      rfl
    rw [hnone, Option.or_none]

theorem KG.lookupProp_mergeProps_none (md : List (String × KG.Val))
    (props : List (String × KG.Val)) (k : String)
    (h : md.find? (fun kv => kv.1 == k) = none) :
    KG.lookupProp (KG.mergeProps props md) k = KG.lookupProp props k := by
  induction md generalizing props with
  | nil => rfl
  | cons kv rest ih =>
    have hall := List.find?_eq_none.mp h
    have hkv : (kv.1 == k) = false := by
      have := hall kv (List.mem_cons_self kv rest)
      simpa using this
    have hrest : rest.find? (fun kv => kv.1 == k) = none :=
      List.find?_eq_none.mpr (fun x hx => hall x (List.mem_cons_of_mem kv hx))
    show KG.lookupProp (KG.mergeProps (KG.setProp props kv.1 kv.2) rest) k
        = KG.lookupProp props k
    rw [ih (KG.setProp props kv.1 kv.2) hrest,
        KG.lookupProp_setProp_ne props kv.1 kv.2 k hkv]

theorem KG.create_entity_fresh (st : KG.Store) (name etype : String)
    (md : List (String × Option KG.Val)) (hn : ¬ name = "")
    (hl : KG.pyLabelMatch (KG.asciiUpper etype) = true)
    (hf : KG.findEntity st (KG.asciiUpper etype) name = none) :
    KG.create_entity st name etype md =
      .ok ({ st with now := st.now + 1,
                     entities := st.entities ++
                       [⟨name, KG.asciiUpper etype,
                         KG.mergeProps [] (KG.dropNones md),
                         some st.now, some st.now⟩] },
           ⟨name, KG.asciiUpper etype, KG.mergeProps [] (KG.dropNones md),
            some st.now, some st.now⟩) := by
  simp only [KG.create_entity, hn, hl, hf, if_false, Bool.not_true,
    Bool.false_eq_true, if_true, reduceCtorEq]
  rfl

theorem KG.create_entity_existing_last (st : KG.Store) (name etype : String)
    (md : List (String × Option KG.Val)) (hn : ¬ name = "")
    (hl : KG.pyLabelMatch (KG.asciiUpper etype) = true)
    (old : List KG.Entity) (e : KG.Entity)
    (hold : old.find? (KG.entityKey (KG.asciiUpper etype) name) = none)
    (hkey : KG.entityKey (KG.asciiUpper etype) name e = true)
    (hents : st.entities = old ++ [e]) :
    KG.create_entity st name etype md =
      .ok ({ st with
               now := st.now + 1,
               entities := old ++ [⟨e.name, e.etype,
                 KG.mergeProps e.props (KG.dropNones md),
                 some (e.created_at.getD st.now), some st.now⟩] },
           ⟨e.name, e.etype, KG.mergeProps e.props (KG.dropNones md),
            some (e.created_at.getD st.now), some st.now⟩) := by
  have hfind : KG.findEntity st (KG.asciiUpper etype) name = some e := by
    rw [KG.findEntity, hents, KG.find?_append_of_none hold,
        List.find?_cons_of_pos _ hkey]
  have hmap : st.entities.map
      (fun x => if KG.entityKey (KG.asciiUpper etype) name x then
        { x with props := KG.mergeProps x.props (KG.dropNones md),
                 updated_at := some st.now,
                 created_at := some (x.created_at.getD st.now) } else x)
      = old ++ [⟨e.name, e.etype,
          KG.mergeProps e.props (KG.dropNones md),
          some (e.created_at.getD st.now), some st.now⟩] := by
    rw [hents, List.map_append]
    congr 1
    · have hall := List.find?_eq_none.mp hold
      conv_rhs => rw [← List.map_id old]
      apply List.map_congr_left
      intro x hx
      have : ¬ KG.entityKey (KG.asciiUpper etype) name x = true := hall x hx
      simp [this]
    · simp [hkey]
  simp only [KG.create_entity, hn, hl, hfind, if_false, Bool.not_true,
    Bool.false_eq_true, if_true, reduceCtorEq]
  rw [hmap]
  simp

/-! ## Claim C7 -/

/-- Claim C7 (confirmed): upserting the same `(name, type, properties)`
twice onto a store in which that identity is fresh yields exactly one
stored entity; the second call leaves `created_at` unchanged and advances
only `updated_at` (to the strictly later clock value); incoming null-valued
properties are dropped before the merge, so a key carrying no non-null
incoming value keeps its previous value. -/
theorem C7_idempotent_upsert (st : KG.Store) (name etype : String)
    (md : List (String × Option KG.Val))
    (hn : name ≠ "") (hl : KG.pyLabelMatch (KG.asciiUpper etype) = true)
    (hf : KG.findEntity st (KG.asciiUpper etype) name = none)
    (st1 : KG.Store) (e1 : KG.Entity)
    (h1 : KG.create_entity st name etype md = .ok (st1, e1))
    (st2 : KG.Store) (e2 : KG.Entity)
    (h2 : KG.create_entity st1 name etype md = .ok (st2, e2)) :
    KG.countEntity st2 (KG.asciiUpper etype) name = 1 ∧
    e1.created_at = some st.now ∧ e1.updated_at = some st.now ∧
    e2.created_at = e1.created_at ∧ e2.updated_at = some (st.now + 1) ∧
    (∀ k, (KG.dropNones md).find? (fun kv => kv.1 == k) = none →
       KG.lookupProp e2.props k = KG.lookupProp e1.props k) := by
  rw [KG.create_entity_fresh st name etype md hn hl hf] at h1
  injection h1 with h1
  injection h1 with hA hB
  subst hA
  subst hB
  rw [KG.create_entity_existing_last _ name etype md hn hl st.entities _
      hf (by simp [KG.entityKey]) rfl] at h2
  injection h2 with h2
  injection h2 with hA2 hB2
  subst hA2
  subst hB2
  have hall := List.find?_eq_none.mp hf
  refine ⟨?_, rfl, rfl, rfl, rfl, ?_⟩
  · have hnilf : st.entities.filter
        (KG.entityKey (KG.asciiUpper etype) name) = [] := by
      rw [List.filter_eq_nil_iff]
      exact hall
    simp [KG.countEntity, List.filter_append, hnilf, KG.entityKey]
  · intro k hk
    exact KG.lookupProp_mergeProps_none _ _ _ hk

/-- Witness for C7: both upserts of `("Alice", "Person")` computed on the
empty store, with a null-valued `"age"` property in the incoming map. -/
theorem C7_witness :
    KG.countEntity exSt2 "PERSON" "Alice" = 1 ∧
    exE2.created_at = exE1.created_at :=
  have happ := C7_idempotent_upsert KG.emptyStore "Alice" "Person" exMd
    (by decide) (by decide) (by rfl) exSt1 exE1 (by rfl) exSt2 exE2 (by rfl)
  ⟨happ.1, happ.2.2.2.1⟩

theorem KG.create_relationship_types (st : KG.Store) (sn sT rT onm oT : String)
    (md : List (String × Option KG.Val)) (st' : KG.Store) (r : KG.Rel)
    (h : KG.create_relationship st sn sT rT onm oT md = .ok (st', r)) :
    r.subj_type = KG.asciiUpper sT ∧ r.rtype = KG.asciiUpper rT ∧
    r.obj_type = KG.asciiUpper oT := by
  unfold KG.create_relationship at h
  dsimp only at h
  split at h
  · exact absurd h (by simp)
  · split at h
    · exact absurd h (by simp)
    · split at h
      · exact absurd h (by simp)
      · split at h
        · exact absurd h (by simp)
        · split at h
          · split at h
            · next r0 heq =>
              have hkey := List.find?_some heq
              simp only [KG.relKey, Bool.and_eq_true, beq_iff_eq] at hkey
              injection h with h
              injection h with hA hB
              subst hB
              exact ⟨hkey.1.1.1.1, hkey.1.1.2, hkey.1.2⟩
            · next heq =>
              injection h with h
              injection h with hA hB
              subst hB
              exact ⟨rfl, rfl, rfl⟩
          · exact absurd h (by simp)

/-! ## Claim C10 -/

/-- Claim C10, as stated, is FALSE on the code: the knowledge-triple path
(`KGManager.create_knowledge_triple`) interpolates entity types without
upper-casing them, so it stores the label `"Person"` verbatim, and a
subsequent `create_entity("alice", "person")` — which addresses
`("alice", "PERSON")` — creates a SECOND node instead of merging: not
every mutation upper-cases, and the stored label is not always the
upper-cased form. -/
theorem C10_counterexample :
    exTripleStore.entities.map (fun e => e.etype) = ["Person", "Person"] ∧
    (KG.create_entity exTripleStore "alice" "person" []).map
        (fun p => p.1.entities.length) = .ok 3 :=
  ⟨by decide, rfl⟩

/-- Claim C10 (amended): within `KGStorage` the claim holds — every
`create_entity` / `create_relationship` call upper-cases its type labels
before use, so two upserts whose types differ only in letter case address
the same stored entity (one entity results, not two), the stored entity
label is the upper-cased form, and every stored relationship carries
upper-cased subject/relationship/object types.  The exception is the
knowledge-triple path in `KGManager`, which bypasses this (see the
counterexample). -/
theorem C10_type_case_insensitive (st : KG.Store) (name t1 t2 : String)
    (md1 md2 : List (String × Option KG.Val))
    (hn : name ≠ "") (hl : KG.pyLabelMatch (KG.asciiUpper t1) = true)
    (ht : KG.asciiUpper t2 = KG.asciiUpper t1)
    (hf : KG.findEntity st (KG.asciiUpper t1) name = none)
    (st1 : KG.Store) (e1 : KG.Entity)
    (h1 : KG.create_entity st name t1 md1 = .ok (st1, e1))
    (st2 : KG.Store) (e2 : KG.Entity)
    (h2 : KG.create_entity st1 name t2 md2 = .ok (st2, e2)) :
    e1.etype = KG.asciiUpper t1 ∧ e2.etype = KG.asciiUpper t1 ∧
    KG.countEntity st2 (KG.asciiUpper t1) name = 1 ∧
    st2.entities.length = st.entities.length + 1 ∧
    (∀ (st' : KG.Store) (sn sT rT onm oT : String)
       (mdr : List (String × Option KG.Val)) (st'' : KG.Store) (r : KG.Rel),
       KG.create_relationship st' sn sT rT onm oT mdr = .ok (st'', r) →
       r.subj_type = KG.asciiUpper sT ∧ r.rtype = KG.asciiUpper rT ∧
       r.obj_type = KG.asciiUpper oT) := by
  rw [KG.create_entity_fresh st name t1 md1 hn hl hf] at h1
  injection h1 with h1
  injection h1 with hA hB
  subst hA
  subst hB
  have hl2 : KG.pyLabelMatch (KG.asciiUpper t2) = true := by rw [ht]; exact hl
  have hold2 : st.entities.find? (KG.entityKey (KG.asciiUpper t2) name)
      = none := by rw [ht]; exact hf
  rw [KG.create_entity_existing_last _ name t2 md2 hn hl2 st.entities _
      hold2 (by simp [KG.entityKey, ht]) rfl] at h2
  injection h2 with h2
  injection h2 with hA2 hB2
  subst hA2
  subst hB2
  have hall := List.find?_eq_none.mp hf
  refine ⟨rfl, rfl, ?_, by simp, ?_⟩
  · have hnilf : st.entities.filter
        (KG.entityKey (KG.asciiUpper t1) name) = [] := by
      rw [List.filter_eq_nil_iff]
      exact hall
    simp [KG.countEntity, List.filter_append, hnilf, KG.entityKey]
  · intro st' sn sT rT onm oT mdr st'' r hr
    exact KG.create_relationship_types st' sn sT rT onm oT mdr st'' r hr

/-- Witness for C10: the amended theorem at `("alice", "Person")` followed
by `("alice", "PERSON")` on the empty store. -/
theorem C10_witness :
    exP2.etype = KG.asciiUpper "Person" ∧
    KG.countEntity exPSt2 (KG.asciiUpper "Person") "alice" = 1 :=
  have happ := C10_type_case_insensitive KG.emptyStore "alice" "Person"
    "PERSON" [] [] (by decide) (by decide) (by decide) rfl
    exPSt1 exP1 rfl exPSt2 exP2 rfl
  ⟨happ.2.1, happ.2.2.1⟩

/-! ## Claim C8 -/

/-- Claim C8, as stated, is FALSE on the code: two of the listed mutation
operations perform NO label validation at all.  `update_relationship` with
the invalid type `"HAS-PART"` reaches the store and fails there with the
wrapped backend error (not a label-validation error), and
`create_knowledge_triple` with the invalid predicate `"has-part"` swallows
the failure entirely and just returns `False`. -/
theorem C8_counterexample :
    KG.update_relationship exRelStore "a" "T" "HAS-PART" "b" "T"
        [("k", some "v")] = .error .backend ∧
    KG.create_knowledge_triple KG.emptyStore "x" "has-part" "y"
        "Entity" "Entity" [] = (KG.emptyStore, false) :=
  ⟨rfl, rfl⟩

/-- Claim C8 (amended): entity upsert and relationship create do validate —
whenever the (upper-cased) entity type, or any of the three (upper-cased)
types of a relationship create, fails the label pattern, the operation
fails with the label-validation error before any store mutation; but
relationship update and knowledge-triple create perform no label
validation (see the counterexample). -/
theorem C8_label_validation (st : KG.Store) (name etype : String)
    (md : List (String × Option KG.Val))
    (sn sT rT onm oT : String) (md2 : List (String × Option KG.Val))
    (h1 : name ≠ "")
    (h2 : KG.pyLabelMatch (KG.asciiUpper etype) = false)
    (h3 : sn ≠ "" ∧ sT ≠ "" ∧ rT ≠ "" ∧ onm ≠ "" ∧ oT ≠ "")
    (h4 : KG.pyLabelMatch (KG.asciiUpper sT) = false ∨
          KG.pyLabelMatch (KG.asciiUpper oT) = false ∨
          KG.pyLabelMatch (KG.asciiUpper rT) = false) :
    KG.create_entity st name etype md = .error .invalidLabel ∧
    KG.create_relationship st sn sT rT onm oT md2 = .error .invalidLabel := by
  constructor
  · unfold KG.create_entity
    dsimp only
    rw [if_neg h1, if_pos (by simp [h2])]
  · unfold KG.create_relationship
    dsimp only
    rw [if_neg (by
      push_neg
      exact ⟨h3.1, h3.2.1, h3.2.2.1, h3.2.2.2.1, h3.2.2.2.2⟩)]
    cases hS : KG.pyLabelMatch (KG.asciiUpper sT) with
    | false => rw [if_pos (by simp [hS])]
    | true =>
      rw [if_neg (by simp [hS])]
      cases hO : KG.pyLabelMatch (KG.asciiUpper oT) with
      | false => rw [if_pos (by simp [hO])]
      | true =>
        rw [if_neg (by simp [hO])]
        cases hR : KG.pyLabelMatch (KG.asciiUpper rT) with
        | false => rw [if_pos (by simp [hR])]
        | true =>
          exfalso
          rcases h4 with h4 | h4 | h4 <;> simp_all

/-- Witness for C8: the amended theorem at an entity type with a space and
a relationship type with a space, on the empty store. -/
theorem C8_witness :
    KG.create_entity KG.emptyStore "X" "bad type" [] = .error .invalidLabel ∧
    KG.create_relationship KG.emptyStore "a" "T" "has part" "b" "T" []
      = .error .invalidLabel :=
  C8_label_validation KG.emptyStore "X" "bad type" [] "a" "T" "has part"
    "b" "T" [] (by decide) (by decide)
    ⟨by decide, by decide, by decide, by decide, by decide⟩
    (Or.inr (Or.inr (by decide)))

theorem KG.create_entity_ok (st : KG.Store) (name etype : String)
    (md : List (String × Option KG.Val)) (hn : ¬ name = "")
    (hl : KG.pyLabelMatch (KG.asciiUpper etype) = true) :
    ∃ p, KG.create_entity st name etype md = .ok p := by
  unfold KG.create_entity
  dsimp only
  rw [if_neg hn, if_neg (by simp [hl])]
  cases hfe : KG.findEntity st (KG.asciiUpper etype) name with
  | some e => exact ⟨_, rfl⟩
  | none => exact ⟨_, rfl⟩

theorem KG.create_entity_exists_after (st : KG.Store) (name etype : String)
    (md : List (String × Option KG.Val)) (st' : KG.Store) (e : KG.Entity)
    (h : KG.create_entity st name etype md = .ok (st', e)) :
    (KG.findEntity st' (KG.asciiUpper etype) name).isSome = true ∧
    (∀ T N : String, (KG.findEntity st T N).isSome = true →
      (KG.findEntity st' T N).isSome = true) := by
  unfold KG.create_entity at h
  dsimp only at h
  split at h
  · exact absurd h (by simp)
  · split at h
    · exact absurd h (by simp)
    · split at h
      · next e0 heq =>
        injection h with h
        injection h with hA hB
        subst hA
        have he0mem := List.mem_of_find?_eq_some heq
        have he0key := List.find?_some heq
        constructor
        · simp only [KG.findEntity, List.find?_isSome]
          refine ⟨_, List.mem_map_of_mem _ he0mem, ?_⟩
          rw [if_pos he0key]
          simp only [KG.entityKey, Bool.and_eq_true, beq_iff_eq] at he0key ⊢
          exact he0key
        · intro T N hT
          simp only [KG.findEntity, List.find?_isSome] at hT ⊢
          obtain ⟨x, hx, hkx⟩ := hT
          refine ⟨_, List.mem_map_of_mem _ hx, ?_⟩
          by_cases hc : KG.entityKey (KG.asciiUpper etype) name x = true
          · rw [if_pos hc]
            simp only [KG.entityKey, Bool.and_eq_true, beq_iff_eq] at hkx ⊢
            exact hkx
          · rw [if_neg hc]
            exact hkx
      · next heq =>
        injection h with h
        injection h with hA hB
        subst hA
        constructor
        · simp only [KG.findEntity, List.find?_isSome]
          refine ⟨_, List.mem_append_right _ (List.mem_singleton.mpr rfl), ?_⟩
          simp [KG.entityKey]
        · intro T N hT
          simp only [KG.findEntity, List.find?_isSome] at hT ⊢
          obtain ⟨x, hx, hkx⟩ := hT
          exact ⟨x, List.mem_append_left _ hx, hkx⟩

theorem KG.batch_entities_mono (specs : List KG.EntitySpec) :
    ∀ (st : KG.Store) (T N : String),
      (KG.findEntity st T N).isSome = true →
      (KG.findEntity (KG.batch_create_entities st specs) T N).isSome = true := by
  induction specs with
  | nil => intro st T N h; exact h
  | cons spec rest ih =>
    intro st T N h
    unfold KG.batch_create_entities
    split
    · exact ih st T N h
    · cases hce : KG.create_entity st spec.name (KG.asciiUpper spec.etype)
          spec.md with
      | ok p =>
        exact ih p.1 T N
          ((KG.create_entity_exists_after _ _ _ _ p.1 p.2 (by rw [hce])).2 T N h)
      | error e =>
        exact ih st T N h

theorem KG.batch_entities_creates (specs : List KG.EntitySpec) :
    ∀ (st : KG.Store) (spec : KG.EntitySpec), spec ∈ specs →
      ¬ spec.name = "" → ¬ spec.etype = "" →
      KG.pyLabelMatch (KG.asciiUpper (KG.asciiUpper spec.etype)) = true →
      (KG.findEntity (KG.batch_create_entities st specs)
         (KG.asciiUpper (KG.asciiUpper spec.etype)) spec.name).isSome = true := by
  induction specs with
  | nil => intro st spec hmem; cases hmem
  | cons s rest ih =>
    intro st spec hmem hn he hl
    unfold KG.batch_create_entities
    rcases List.mem_cons.mp hmem with rfl | hmem'
    · rw [if_neg (by push_neg; exact ⟨hn, he⟩)]
      obtain ⟨p, hp⟩ :=
        KG.create_entity_ok st spec.name (KG.asciiUpper spec.etype) spec.md hn hl
      rw [hp]
      exact KG.batch_entities_mono rest p.1 _ _
        ((KG.create_entity_exists_after _ _ _ _ p.1 p.2 (by rw [hp])).1)
    · split
      · exact ih st spec hmem' hn he hl
      · cases hce : KG.create_entity st s.name (KG.asciiUpper s.etype) s.md with
        | ok p =>
          exact ih p.1 spec hmem' hn he hl
        | error e =>
          exact ih st spec hmem' hn he hl

theorem KG.create_relationship_entities (st : KG.Store)
    (sn sT rT onm oT : String) (md : List (String × Option KG.Val))
    (st' : KG.Store) (r : KG.Rel)
    (h : KG.create_relationship st sn sT rT onm oT md = .ok (st', r)) :
    st'.entities = st.entities := by
  unfold KG.create_relationship at h
  dsimp only at h
  split at h
  · exact absurd h (by simp)
  · split at h
    · exact absurd h (by simp)
    · split at h
      · exact absurd h (by simp)
      · split at h
        · exact absurd h (by simp)
        · split at h
          · split at h <;>
              (injection h with h; injection h with hA hB; subst hA; rfl)
          · exact absurd h (by simp)

theorem KG.notFound_shape (st : KG.Store) (sn sT rT onm oT : String)
    (md : List (String × Option KG.Val))
    (h : KG.create_relationship st sn sT rT onm oT md = .error .notFound) :
    ¬ (sn = "" ∨ sT = "" ∨ rT = "" ∨ onm = "" ∨ oT = "") ∧
    KG.pyLabelMatch (KG.asciiUpper sT) = true ∧
    KG.pyLabelMatch (KG.asciiUpper oT) = true ∧
    KG.pyLabelMatch (KG.asciiUpper rT) = true ∧
    ((KG.findEntity st (KG.asciiUpper sT) sn).isSome = false ∨
     (KG.findEntity st (KG.asciiUpper oT) onm).isSome = false) := by
  unfold KG.create_relationship at h
  dsimp only at h
  split at h
  · exact absurd h (by simp)
  next hne =>
    split at h
    next hS => exact absurd h (by simp)
    next hS =>
      split at h
      next hO => exact absurd h (by simp)
      next hO =>
        split at h
        next hR => exact absurd h (by simp)
        next hR =>
          split at h
          · split at h <;> exact absurd h (by simp)
          next hcond =>
            refine ⟨hne, by simpa using hS, by simpa using hO,
              by simpa using hR, ?_⟩
            rcases not_and_or.mp hcond with hh | hh
            · exact Or.inl (by simpa using hh)
            · exact Or.inr (by simpa using hh)

theorem KG.batch_rels_no_notFound (E : List KG.Entity)
    (specs : List KG.RelSpec) :
    ∀ (st : KG.Store), st.entities = E →
      (∀ spec ∈ specs, ∀ st0 : KG.Store, st0.entities = E →
        KG.create_relationship st0 spec.subj_name
            (KG.asciiUpper spec.subj_type) (KG.asciiUpper spec.rel_type)
            spec.obj_name (KG.asciiUpper spec.obj_type) spec.md
          ≠ .error .notFound) →
      ∀ r ∈ (KG.batch_create_relationships st specs).2,
        r ≠ .error .notFound := by
  induction specs with
  | nil =>
    intro st hE hgood r hr
    simp [KG.batch_create_relationships] at hr
  | cons spec rest ih =>
    intro st hE hgood r hr
    unfold KG.batch_create_relationships at hr
    cases hce : KG.create_relationship st spec.subj_name
        (KG.asciiUpper spec.subj_type) (KG.asciiUpper spec.rel_type)
        spec.obj_name (KG.asciiUpper spec.obj_type) spec.md with
    | ok p =>
      rw [hce] at hr
      dsimp only at hr
      rcases List.mem_cons.mp hr with rfl | hr'
      · simp
      · refine ih p.1 ?_ (fun s hs => hgood s (List.mem_cons_of_mem _ hs)) r hr'
        rw [KG.create_relationship_entities _ _ _ _ _ _ _ p.1 p.2 (by rw [hce])]
        exact hE
    | error e =>
      rw [hce] at hr
      dsimp only at hr
      rcases List.mem_cons.mp hr with rfl | hr'
      · intro hcontra
        injection hcontra with hcontra
        subst hcontra
        exact hgood spec (List.mem_cons_self _ _) st hE hce
      · exact ih st hE (fun s hs => hgood s (List.mem_cons_of_mem _ hs)) r hr'

theorem KG.mem_addIfAbsent_self (acc : List String) (x : String) :
    x ∈ KG.addIfAbsent acc x := by
  unfold KG.addIfAbsent
  split
  next hc => exact List.elem_iff.mp hc
  next hc => exact List.mem_append_right _ (List.mem_singleton.mpr rfl)

theorem KG.mem_addIfAbsent_of_mem (acc : List String) (x y : String)
    (h : y ∈ acc) : y ∈ KG.addIfAbsent acc x := by
  unfold KG.addIfAbsent
  split
  · exact h
  · exact List.mem_append_left _ h

theorem KG.mem_collectAux_of_mem (triples : List (String × String × String)) :
    ∀ (acc : List String) (y : String), y ∈ acc →
      y ∈ KG.collectAux acc triples := by
  induction triples with
  | nil => intro acc y h; exact h
  | cons t rest ih =>
    intro acc y h
    exact ih _ y (KG.mem_addIfAbsent_of_mem _ _ _
      (KG.mem_addIfAbsent_of_mem _ _ _ h))

theorem KG.mem_collectAux (triples : List (String × String × String)) :
    ∀ (acc : List String) (t : String × String × String), t ∈ triples →
      t.1 ∈ KG.collectAux acc triples ∧ t.2.2 ∈ KG.collectAux acc triples := by
  induction triples with
  | nil => intro acc t h; cases h
  | cons s rest ih =>
    intro acc t h
    rcases List.mem_cons.mp h with rfl | h'
    · constructor
      · exact KG.mem_collectAux_of_mem rest _ _
          (KG.mem_addIfAbsent_of_mem _ _ _ (KG.mem_addIfAbsent_self _ _))
      · exact KG.mem_collectAux_of_mem rest _ _ (KG.mem_addIfAbsent_self _ _)
    · exact ih _ t h'

theorem KG.mem_collectEntities (triples : List (String × String × String))
    (t : String × String × String) (h : t ∈ triples) :
    t.1 ∈ KG.collectEntities triples ∧ t.2.2 ∈ KG.collectEntities triples :=
  KG.mem_collectAux triples [] t h

/-! ## Claim C9 -/

/-- Claim C9 (confirmed): with well-formed arguments (nonempty names, valid
labels), strict `create_relationship` fails with the not-found error
whenever either endpoint entity is absent; and no relationship created
through `import_from_triples` can ever fail with not-found, because every
subject and object name is upserted first, under exactly the
(upper-cased) type later used to address it. -/
theorem C9_referential_integrity (st : KG.Store) (sn sT rT onm oT : String)
    (md : List (String × Option KG.Val))
    (hnames : sn ≠ "" ∧ sT ≠ "" ∧ rT ≠ "" ∧ onm ≠ "" ∧ oT ≠ "")
    (hlabels : KG.pyLabelMatch (KG.asciiUpper sT) = true ∧
               KG.pyLabelMatch (KG.asciiUpper oT) = true ∧
               KG.pyLabelMatch (KG.asciiUpper rT) = true)
    (hmiss : KG.findEntity st (KG.asciiUpper sT) sn = none ∨
             KG.findEntity st (KG.asciiUpper oT) onm = none) :
    KG.create_relationship st sn sT rT onm oT md = .error .notFound ∧
    (∀ (triples : List (String × String × String))
       (tmap : List (String × String)),
       ∀ r ∈ (KG.import_from_triples st triples tmap).2,
         r ≠ .error .notFound) := by
  constructor
  · unfold KG.create_relationship
    dsimp only
    rw [if_neg (by
          push_neg
          exact ⟨hnames.1, hnames.2.1, hnames.2.2.1, hnames.2.2.2.1,
            hnames.2.2.2.2⟩),
        if_neg (by simp [hlabels.1]), if_neg (by simp [hlabels.2.1]),
        if_neg (by simp [hlabels.2.2]),
        if_neg (by rcases hmiss with hm | hm <;> simp [hm])]
  · intro triples tmap r hr
    unfold KG.import_from_triples at hr
    dsimp only at hr
    refine KG.batch_rels_no_notFound
      (KG.batch_create_entities st
        ((KG.collectEntities triples).map
          (fun n => KG.EntitySpec.mk n (KG.lookupType tmap n) []))).entities
      (triples.map (fun t => KG.RelSpec.mk t.1 (KG.lookupType tmap t.1) t.2.1
        t.2.2 (KG.lookupType tmap t.2.2) []))
      _ rfl ?_ r hr
    intro spec hspec st0 hst0 hc
    obtain ⟨t, ht, rfl⟩ := List.mem_map.mp hspec
    obtain ⟨hne, hS, hO, hR, hm⟩ := KG.notFound_shape _ _ _ _ _ _ _ hc
    push_neg at hne
    have hsubj := KG.batch_entities_creates
      ((KG.collectEntities triples).map
        (fun n => KG.EntitySpec.mk n (KG.lookupType tmap n) []))
      st (KG.EntitySpec.mk t.1 (KG.lookupType tmap t.1) [])
      (List.mem_map_of_mem _ (KG.mem_collectEntities triples t ht).1)
      hne.1
      (fun hx => hne.2.1 ((KG.asciiUpper_eq_empty_iff _).mpr hx))
      hS
    have hobj := KG.batch_entities_creates
      ((KG.collectEntities triples).map
        (fun n => KG.EntitySpec.mk n (KG.lookupType tmap n) []))
      st (KG.EntitySpec.mk t.2.2 (KG.lookupType tmap t.2.2) [])
      (List.mem_map_of_mem _ (KG.mem_collectEntities triples t ht).2)
      hne.2.2.2.1
      (fun hx => hne.2.2.2.2 ((KG.asciiUpper_eq_empty_iff _).mpr hx))
      hO
    have hfe : ∀ T N : String, KG.findEntity st0 T N = KG.findEntity
        (KG.batch_create_entities st
          ((KG.collectEntities triples).map
            (fun n => KG.EntitySpec.mk n (KG.lookupType tmap n) []))) T N := by
      intro T N
      unfold KG.findEntity
      rw [hst0]
    rcases hm with hm | hm
    · rw [hfe] at hm
      simp [hm] at hsubj
    · rw [hfe] at hm
      simp [hm] at hobj

/-- Witness for C9: part one at a missing endpoint in the empty store, part
two at the single-triple import, whose one relationship outcome is a
success, not a not-found failure. -/
theorem C9_witness :
    KG.create_relationship KG.emptyStore "a" "T" "KNOWS" "b" "T" []
      = .error .notFound ∧
    Except.ok exRelW ≠ (Except.error KG.Err.notFound : Except KG.Err KG.Rel) :=
  have happ := C9_referential_integrity KG.emptyStore "a" "T" "KNOWS" "b" "T"
    [] ⟨by decide, by decide, by decide, by decide, by decide⟩
    ⟨by decide, by decide, by decide⟩ (Or.inl rfl)
  ⟨happ.1, happ.2 [("Alice", "works_at", "Acme")] [] (.ok exRelW)
    (List.mem_singleton.mpr rfl)⟩
